import Mathlib

/-!
Verification of the statistics aggregation engine of edb_stat_statements
(file src/edb_stat_statements/edb_stat_statements.c).

The embedding models the shared hash table of per-query counter records and
the operations the specification describes: sample recording (pgss_store's
counter-update section), allocation with eviction (entry_alloc and
entry_dealloc), the garbage-collection trigger heuristic (need_gc_qtexts),
the garbage collector's failure path (gc_qtexts), selective reset
(entry_reset and the SINGLE_ENTRY_RESET macro), and row enumeration
(edb_stat_statements_internal).

C doubles are modelled as exact rationals, so statements that the C source
makes "within floating-point tolerance" hold here exactly.  C int64 call
counters are modelled as Nat (they only ever increase by one), sizes as Nat,
and signed lengths (query_len can be -1) as Int.  The reported standard
deviation, sqrt of the population variance, is represented by its square
(the reported population variance), since sqrt leaves the rationals.
-/

namespace EdbStatStatements

/-- PGSS_PLAN / PGSS_EXEC, the two categories of cost samples. -/
inductive Kind where
  | plan
  | exec
deriving DecidableEq, Repr

/-- USAGE_INIT in the C source: initial usage of a non-sticky entry. -/
def USAGE_INIT : ℚ := 1

/-- USAGE_EXEC in the C source: usage increment per recorded sample
(the macro ignores its duration argument and is the constant 1.0). -/
def USAGE_EXEC : ℚ := 1

/-- USAGE_DECREASE_FACTOR in the C source: decay for normal entries. -/
def USAGE_DECREASE_FACTOR : ℚ := 99 / 100

/-- STICKY_DECREASE_FACTOR in the C source: decay for sticky entries. -/
def STICKY_DECREASE_FACTOR : ℚ := 1 / 2

/-- USAGE_DEALLOC_PERCENT in the C source. -/
def USAGE_DEALLOC_PERCENT : Nat := 5

/-- ASSUMED_LENGTH_INIT in the C source: initial assumed mean query length. -/
def ASSUMED_LENGTH_INIT : Nat := 1024

/-- The per-kind slice of the C Counters struct: the fields indexed by
PGSS_PLAN / PGSS_EXEC that pgss_store updates per sample. -/
structure KindStats where
  calls : Nat
  total_time : ℚ
  min_time : ℚ
  max_time : ℚ
  mean_time : ℚ
  sum_var_time : ℚ
deriving DecidableEq, Repr

/-- A zeroed per-kind record, as produced by memset in entry_alloc. -/
def zeroKindStats : KindStats :=
  { calls := 0, total_time := 0, min_time := 0, max_time := 0,
    mean_time := 0, sum_var_time := 0 }

/-- The Counters struct, restricted to the fields the verified claims
depend on: the two per-kind slices and the usage score. -/
structure Counters where
  plan : KindStats
  exec : KindStats
  usage : ℚ
deriving DecidableEq, Repr

/-- The IS_STICKY macro: an entry with no plan and no exec calls. -/
def IS_STICKY (c : Counters) : Bool :=
  c.plan.calls + c.exec.calls == 0

/-- Kind-indexed access to the per-kind slice. -/
def Counters.get (c : Counters) : Kind → KindStats
  | Kind.plan => c.plan
  | Kind.exec => c.exec

/-- Kind-indexed update of the per-kind slice. -/
def Counters.set (c : Counters) : Kind → KindStats → Counters
  | Kind.plan, ks => { c with plan := ks }
  | Kind.exec, ks => { c with exec := ks }

/-- Welford's mean update from pgss_store: old_mean plus
(sample - old_mean) divided by the incremented call count. -/
def welford_mean (ks : KindStats) (total_time : ℚ) : ℚ :=
  ks.mean_time + (total_time - ks.mean_time) / ((ks.calls + 1 : Nat) : ℚ)

/-- The per-sample update of one kind slice, from pgss_store: increment
calls and total_time; on the first call set min/max/mean to the sample;
otherwise apply Welford's mean/variance update and the min/max update,
where min = 0 and max = 0 together mean the min/max statistics were reset
and the next sample reinitializes both. -/
def record_sample (ks : KindStats) (total_time : ℚ) : KindStats :=
  if ks.calls + 1 = 1 then
    { ks with calls := ks.calls + 1, total_time := ks.total_time + total_time,
              min_time := total_time, max_time := total_time,
              mean_time := total_time }
  else
    { ks with calls := ks.calls + 1, total_time := ks.total_time + total_time,
              min_time := if ks.min_time = 0 ∧ ks.max_time = 0 then total_time
                          else if ks.min_time > total_time then total_time else ks.min_time,
              max_time := if ks.min_time = 0 ∧ ks.max_time = 0 then total_time
                          else if ks.max_time < total_time then total_time else ks.max_time,
              mean_time := welford_mean ks total_time,
              sum_var_time := ks.sum_var_time
                + (total_time - ks.mean_time) * (total_time - welford_mean ks total_time) }

/-- The unstick step at the top of pgss_store's counter-update section:
a previously sticky entry gets its usage reset to USAGE_INIT. -/
def unstick (c : Counters) : Counters :=
  if IS_STICKY c then { c with usage := USAGE_INIT } else c

/-- The whole counter-update section of pgss_store for one sample of the
given kind: unstick if sticky, record the sample into that kind's slice,
and add USAGE_EXEC to the usage score. -/
def pgss_store_counters (c : Counters) (kind : Kind) (total_time : ℚ) : Counters :=
  let c1 := unstick c
  let c2 := c1.set kind (record_sample (c1.get kind) total_time)
  { c2 with usage := c2.usage + USAGE_EXEC }

/-- Folding a list of samples of one kind into a fresh slice. -/
def record_samples (l : List ℚ) : KindStats :=
  l.foldl record_sample zeroKindStats

/-- The stddev computation of edb_stat_statements_internal, squared:
the reported stddev is sqrt of this value; population variance
sum_var_time / calls when calls > 1, else 0 (no Bessel correction). -/
def reported_variance (ks : KindStats) : ℚ :=
  if 1 < ks.calls then ks.sum_var_time / (ks.calls : ℚ) else 0

/-- The pgssHashKey struct: userid, dbid, queryid, toplevel.
Oids and the uint64 queryid are modelled as Nat. -/
structure HashKey where
  userid : Nat
  dbid : Nat
  queryid : Nat
  toplevel : Bool
deriving DecidableEq, Repr

/-- The pgssEntry struct, restricted to the fields the claims depend on:
the key, the counters, the query-text reference (offset and the three
signed lengths), the encoding and statement type, and the two
timestamps.  The 16-byte uuid field is omitted; no claim mentions it. -/
structure Entry where
  key : HashKey
  counters : Counters
  query_offset : Nat
  query_len : Int
  extras_len : Int
  tag_len : Int
  encoding : Int
  stmt_type : Int
  stats_since : Int
  minmax_stats_since : Int
deriving DecidableEq, Repr

instance : Inhabited Entry :=
  ⟨{ key := ⟨0, 0, 0, false⟩,
     counters := ⟨zeroKindStats, zeroKindStats, 0⟩,
     query_offset := 0, query_len := 0, extras_len := 0, tag_len := 0,
     encoding := 0, stmt_type := 0, stats_since := 0, minmax_stats_since := 0 }⟩

/-- The shared state pgssSharedState together with the hash table:
the entry list (the hash table contents; the table guarantees key
uniqueness, carried as a hypothesis where a claim needs it), the
current median usage, mean query length, text-store extent,
GC generation count, and the global stats block (dealloc count and
last full reset timestamp). -/
structure PgssState where
  entries : List Entry
  cur_median_usage : ℚ
  mean_query_len : Nat
  extent : Nat
  gc_count : Nat
  dealloc : Nat
  stats_reset : Int
deriving DecidableEq, Repr

/-- The usage-decay step of entry_dealloc: sticky entries decay by
STICKY_DECREASE_FACTOR, others by USAGE_DECREASE_FACTOR. -/
def decay_entry (e : Entry) : Entry :=
  if IS_STICKY e.counters then
    { e with counters := { e.counters with
        usage := e.counters.usage * STICKY_DECREASE_FACTOR } }
  else
    { e with counters := { e.counters with
        usage := e.counters.usage * USAGE_DECREASE_FACTOR } }

/-- The entry_cmp qsort comparator, as a Bool-valued order on usage. -/
def usage_le (a b : Entry) : Bool :=
  decide (a.counters.usage ≤ b.counters.usage)

/-- The victim count of entry_dealloc: Min(Max(10, i * 5 / 100), i)
where i is the number of entries. -/
def nvictims (i : Nat) : Nat :=
  min (max 10 (i * USAGE_DEALLOC_PERCENT / 100)) i

/-- entry_dealloc: decay every entry's usage, compute the total and
count of valid query texts for the mean-query-length estimate, sort by
usage ascending, record the median usage and the mean query length,
remove the nvictims lowest-usage entries, and count one deallocation in
the global stats. -/
def entry_dealloc (s : PgssState) : PgssState :=
  let decayed := s.entries.map decay_entry
  let sorted := decayed.mergeSort usage_le
  let valid := decayed.filter (fun e => decide (0 ≤ e.query_len))
  let tottextlen := valid.foldl (fun acc e => acc + (e.query_len + 1).toNat) 0
  { s with
    entries := sorted.drop (nvictims s.entries.length),
    cur_median_usage :=
      if 0 < s.entries.length then
        (sorted.getD (s.entries.length / 2) default).counters.usage
      else s.cur_median_usage,
    mean_query_len :=
      if 0 < valid.length then tottextlen / valid.length else ASSUMED_LENGTH_INIT,
    dealloc := s.dealloc + 1 }

/-- The fresh entry initialization in entry_alloc when the key is not
found: zeroed counters, usage seeded with the current median usage if
sticky else USAGE_INIT, and the query text metadata recorded. -/
structure AllocArgs where
  key : HashKey
  query_offset : Nat
  query_len : Int
  encoding : Int
  sticky : Bool
  stmt_type : Int
  extras_len : Int
  tag_len : Int
deriving DecidableEq, Repr

/-- The new-entry initialization body of entry_alloc. -/
def init_entry (cur_median_usage : ℚ) (now : Int) (a : AllocArgs) : Entry :=
  { key := a.key,
    counters := { plan := zeroKindStats, exec := zeroKindStats,
                  usage := if a.sticky then cur_median_usage else USAGE_INIT },
    query_offset := a.query_offset, query_len := a.query_len,
    extras_len := a.extras_len, tag_len := a.tag_len,
    encoding := a.encoding, stmt_type := a.stmt_type,
    stats_since := now, minmax_stats_since := now }

/-- The while loop at the top of entry_alloc: run entry_dealloc while
the entry count is at least pgss_max.  The conjunct 0 < count makes the
recursion well founded; it changes nothing for pgss_max at least 1 (the
GUC enforces a minimum of 100), as count at least pgss_max then implies
count positive. -/
def make_space (pgss_max : Nat) (s : PgssState) : PgssState :=
  if _h : pgss_max ≤ s.entries.length ∧ 0 < s.entries.length then
    make_space pgss_max (entry_dealloc s)
  else s
termination_by s.entries.length
decreasing_by
  simp only [entry_dealloc, List.length_drop, List.length_mergeSort, List.length_map]
  have h10 : 1 ≤ nvictims s.entries.length := by
    simp only [nvictims]
    omega
  have hle : nvictims s.entries.length ≤ s.entries.length := by
    simp only [nvictims]
    omega
  omega

/-- entry_alloc: make space while at capacity, then find or create the
entry for the key; an existing entry is returned unchanged (idempotent
under the race described in the C comment). -/
def entry_alloc (pgss_max : Nat) (now : Int) (s : PgssState) (a : AllocArgs) : PgssState :=
  let s1 := make_space pgss_max s
  if s1.entries.any (fun e => decide (e.key = a.key)) then s1
  else { s1 with entries := init_entry s1.cur_median_usage now a :: s1.entries }

/-- The minmax-only branch of the SINGLE_ENTRY_RESET macro on one kind
slice: min_time and max_time are set to 0. -/
def minmax_reset_kind (ks : KindStats) : KindStats :=
  { ks with min_time := 0, max_time := 0 }

/-- The minmax-only branch of SINGLE_ENTRY_RESET on a whole entry:
both kind slices get min/max zeroed and minmax_stats_since is stamped. -/
def minmax_reset (stats_reset : Int) (e : Entry) : Entry :=
  { e with
    counters :=
      { e.counters with
        plan := minmax_reset_kind e.counters.plan
        exec := minmax_reset_kind e.counters.exec }
    minmax_stats_since := stats_reset }

/-- SINGLE_ENTRY_RESET applied to the entry found by an exact-key
lookup (the fast path of entry_reset): when the key is present,
either stamp a minmax-only reset or remove the entry and count the
removal. -/
def single_entry_reset (minmax_only : Bool) (stats_reset : Int)
    (t : List Entry) (k : HashKey) (num_remove : Nat) : List Entry × Nat :=
  match t.find? (fun e => decide (e.key = k)) with
  | none => (t, num_remove)
  | some _ =>
    if minmax_only then
      (t.map (fun e => if e.key = k then minmax_reset stats_reset e else e), num_remove)
    else
      (t.eraseP (fun e => decide (e.key = k)), num_remove + 1)

/-- The scanning paths of entry_reset: iterate the table applying
SINGLE_ENTRY_RESET to every entry matching the predicate, counting the
removals. -/
def scan_reset (minmax_only : Bool) (stats_reset : Int) (p : Entry → Bool) :
    List Entry → List Entry × Nat
  | [] => ([], 0)
  | e :: rest =>
    let r := scan_reset minmax_only stats_reset p rest
    if p e then
      if minmax_only then (minmax_reset stats_reset e :: r.1, r.2)
      else (r.1, r.2 + 1)
    else (e :: r.1, r.2)

/-- The entry filter of entry_reset's scanning path with a nonempty
dbid list: the entry matches if its dbid is one of the given dbids and
userid/queryid match when those filters are set (0 means unset). -/
def scan_match_dbids (userid : Nat) (dbids : List Nat) (queryid : Nat) (e : Entry) : Bool :=
  decide ((userid = 0 ∨ e.key.userid = userid) ∧
          e.key.dbid ∈ dbids ∧
          (queryid = 0 ∨ e.key.queryid = queryid))

/-- The entry filter of entry_reset's scanning path with an empty dbid
list: userid/queryid match when set. -/
def scan_match (userid : Nat) (queryid : Nat) (e : Entry) : Bool :=
  decide ((userid = 0 ∨ e.key.userid = userid) ∧
          (queryid = 0 ∨ e.key.queryid = queryid))

/-- The dispatch of entry_reset over its three paths, producing the new
entry list and num_remove: the fast path when userid, exactly one dbid
and queryid are all given; the scanning path when at least one filter
is given; the remove-everything path otherwise. -/
def entry_reset_entries (minmax_only : Bool) (stats_reset : Int)
    (userid : Nat) (dbids : List Nat) (queryid : Nat)
    (entries : List Entry) : List Entry × Nat :=
  if userid ≠ 0 ∧ dbids.length = 1 ∧ queryid ≠ 0 then
    let d := dbids.headI
    let r1 := single_entry_reset minmax_only stats_reset entries
                ⟨userid, d, queryid, false⟩ 0
    single_entry_reset minmax_only stats_reset r1.1 ⟨userid, d, queryid, true⟩ r1.2
  else if userid ≠ 0 ∨ dbids ≠ [] ∨ queryid ≠ 0 then
    if dbids ≠ [] then
      scan_reset minmax_only stats_reset (scan_match_dbids userid dbids queryid) entries
    else
      scan_reset minmax_only stats_reset (scan_match userid queryid) entries
  else
    scan_reset minmax_only stats_reset (fun _ => true) entries

/-- entry_reset: apply the appropriate reset path; when the number of
removed entries equals the number of entries present at the start,
also zero the global dealloc counter, stamp the full-reset timestamp,
recreate the text file empty (extent 0) and count a GC cycle. -/
def entry_reset (s : PgssState) (userid : Nat) (dbids : List Nat)
    (queryid : Nat) (minmax_only : Bool) (stats_reset : Int) : PgssState :=
  let num_entries := s.entries.length
  let r := entry_reset_entries minmax_only stats_reset userid dbids queryid s.entries
  let s1 := { s with entries := r.1 }
  if num_entries ≠ r.2 then s1
  else { s1 with dealloc := 0, stats_reset := stats_reset,
                 extent := 0, gc_count := s1.gc_count + 1 }

/-- need_gc_qtexts: garbage-collect only when the text-store extent is
at least 512 bytes per possible entry and at least twice the mean query
length per possible entry. -/
def need_gc_qtexts (extent : Nat) (mean_query_len : Nat) (pgss_max : Nat) : Bool :=
  if extent < 512 * pgss_max then false
  else if extent < mean_query_len * pgss_max * 2 then false
  else true

/-- The text-reference invalidation applied to an entry when its text
cannot be located, and to every entry on GC failure. -/
def invalidate_text (e : Entry) : Entry :=
  { e with query_offset := 0, query_len := -1, extras_len := 0, tag_len := 0 }

/-- The gc_fail label of gc_qtexts: invalidate every entry's text
reference, recreate the store empty (extent 0), reset the mean query
length, and bump the GC generation count. -/
def gc_fail_state (s : PgssState) : PgssState :=
  { s with entries := s.entries.map invalidate_text,
           extent := 0, mean_query_len := ASSUMED_LENGTH_INIT,
           gc_count := s.gc_count + 1 }

/-- The per-entry rewrite loop of gc_qtexts.  fetch_ok says whether
qtext_fetch locates the entry's text in the loaded buffer; write_ok
says whether the n-th fwrite to the new file succeeds.  Entries whose
text is missing are invalidated and skipped; a write failure aborts
the loop.  Returns the processed entry list, the new extent, the
number of entries written, and whether the loop completed. -/
def gc_scan (fetch_ok : Entry → Bool) (write_ok : Nat → Bool) :
    List Entry → Nat → Nat → List Entry × Nat × Nat × Bool
  | [], extent, nentries => ([], extent, nentries, true)
  | e :: rest, extent, nentries =>
    if ¬ fetch_ok e then
      let r := gc_scan fetch_ok write_ok rest extent nentries
      (invalidate_text e :: r.1, r.2)
    else if ¬ write_ok nentries then (e :: rest, extent, nentries, false)
    else
      let qlen := (e.query_len + e.extras_len + e.tag_len).toNat
      let r := gc_scan fetch_ok write_ok rest (extent + qlen + 1) (nentries + 1)
      ({ e with query_offset := extent } :: r.1, r.2)

/-- gc_qtexts: re-check the trigger, then load the old file, rewrite
it with only live texts, truncate, and update extent, mean query
length and the GC count.  Failure to load (load_ok), to open the file
for writing (open_ok), any write failure during the scan, or a failure
of the final close (close_ok) jumps to gc_fail_state. -/
def gc_qtexts (pgss_max : Nat) (load_ok open_ok close_ok : Bool)
    (fetch_ok : Entry → Bool) (write_ok : Nat → Bool) (s : PgssState) : PgssState :=
  if ¬ need_gc_qtexts s.extent s.mean_query_len pgss_max then s
  else if ¬ load_ok then gc_fail_state s
  else if ¬ open_ok then gc_fail_state s
  else
    let r := gc_scan fetch_ok write_ok s.entries 0 0
    let s1 := { s with entries := r.1 }
    if ¬ r.2.2.2 then gc_fail_state s1
    else if ¬ close_ok then gc_fail_state s1
    else { s1 with extent := r.2.1,
                   mean_query_len :=
                     if 0 < r.2.2.1 then r.2.1 / r.2.2.1 else ASSUMED_LENGTH_INIT,
                   gc_count := s.gc_count + 1 }

/-- One output row of edb_stat_statements_internal, restricted to the
key and the per-kind statistics columns; the reported stddev column is
carried as its square (the reported population variance). -/
structure StatRow where
  userid : Nat
  dbid : Nat
  toplevel : Bool
  queryid : Nat
  plan : KindStats
  exec : KindStats
  variance_plan : ℚ
  variance_exec : ℚ
deriving DecidableEq, Repr

/-- Build the row for one entry from the copied counters. -/
def mkRow (e : Entry) : StatRow :=
  { userid := e.key.userid, dbid := e.key.dbid,
    toplevel := e.key.toplevel, queryid := e.key.queryid,
    plan := e.counters.plan, exec := e.counters.exec,
    variance_plan := reported_variance e.counters.plan,
    variance_exec := reported_variance e.counters.exec }

/-- The row-producing loop of edb_stat_statements_internal: copy each
entry's counters, skip the entry if it is sticky (unexecuted), else
emit its row. -/
def statements_rows : List Entry → List StatRow
  | [] => []
  | e :: rest =>
    if IS_STICKY e.counters then statements_rows rest
    else mkRow e :: statements_rows rest

/-- A concrete entry with exactly one exec call, for evaluating the
definitions at a specific input. -/
def sample_entry_one_exec : Entry :=
  { key := ⟨1, 2, 3, true⟩
    counters :=
      { plan := zeroKindStats
        exec := { zeroKindStats with calls := 1 }
        usage := 1 }
    query_offset := 0, query_len := 5, extras_len := 0, tag_len := 0,
    encoding := 0, stmt_type := 0, stats_since := 0, minmax_stats_since := 0 }

/-- A concrete allocation request, for evaluating the definitions at a
specific input. -/
def sample_alloc_args : AllocArgs :=
  { key := ⟨1, 2, 3, true⟩, query_offset := 0, query_len := 5,
    encoding := 0, sticky := false, stmt_type := 0, extras_len := 0, tag_len := 0 }

/-- The freshly initialized shared state, for concrete evaluations. -/
def empty_state : PgssState :=
  { entries := [], cur_median_usage := 1, mean_query_len := 1024,
    extent := 0, gc_count := 0, dealloc := 0, stats_reset := 0 }

/-! ## Helper lemmas about sample recording -/

theorem record_sample_calls (ks : KindStats) (t : ℚ) :
    (record_sample ks t).calls = ks.calls + 1 := by
  simp only [record_sample]
  split <;> rfl

theorem record_sample_total (ks : KindStats) (t : ℚ) :
    (record_sample ks t).total_time = ks.total_time + t := by
  simp only [record_sample]
  split <;> rfl

theorem record_sample_mean_var (ks : KindStats) (t : ℚ) (h : ks.calls ≠ 0) :
    (record_sample ks t).mean_time = welford_mean ks t ∧
    (record_sample ks t).sum_var_time
      = ks.sum_var_time + (t - ks.mean_time) * (t - welford_mean ks t) := by
  have h1 : ¬(ks.calls + 1 = 1) := by omega
  simp [record_sample, h1]

theorem record_samples_spec (l : List ℚ) (h : l ≠ []) :
    (record_samples l).calls = l.length ∧
    (record_samples l).total_time = l.sum ∧
    (record_samples l).mean_time = l.sum / (l.length : ℚ) ∧
    (record_samples l).sum_var_time
      = (l.map (fun t => t ^ 2)).sum - l.sum ^ 2 / (l.length : ℚ) := by
  induction l using List.reverseRecOn with
  | nil => exact absurd rfl h
  | append_singleton l t ih =>
    rcases eq_or_ne l [] with hl | hl
    · subst hl
      simp [record_samples, record_sample, zeroKindStats]
    · obtain ⟨hc, ht, hm, hv⟩ := ih hl
      have hstep : record_samples (l ++ [t]) = record_sample (record_samples l) t := by
        simp [record_samples]
      have hpos : 0 < l.length := List.length_pos.mpr hl
      have hn : (record_samples l).calls ≠ 0 := by omega
      have hlen : (0:ℚ) < (l.length : ℚ) := by exact_mod_cast hpos
      have hlen0 : ((l.length : ℚ)) ≠ 0 := ne_of_gt hlen
      have hlen1 : ((l.length : ℚ) + 1) ≠ 0 := by positivity
      obtain ⟨hm2, hv2⟩ := record_sample_mean_var (record_samples l) t hn
      have hwm : welford_mean (record_samples l) t
          = (l.sum + t) / ((l.length : ℚ) + 1) := by
        rw [welford_mean, hm, hc]
        push_cast
        field_simp
        ring
      refine ⟨?_, ?_, ?_, ?_⟩
      · rw [hstep, record_sample_calls, hc]; simp
      · rw [hstep, record_sample_total, ht]; simp
      · rw [hstep, hm2, hwm]
        simp
      · rw [hstep, hv2, hwm, hv, hm]
        simp only [List.map_append, List.sum_append, List.length_append,
          List.map_cons, List.map_nil, List.sum_cons, List.sum_nil,
          List.length_cons, List.length_nil]
        push_cast
        field_simp
        ring

theorem sum_sq_dev (l : List ℚ) (μ : ℚ) :
    (l.map (fun t => (t - μ) ^ 2)).sum
      = (l.map (fun t => t ^ 2)).sum - 2 * μ * l.sum + l.length * μ ^ 2 := by
  induction l with
  | nil => simp
  | cons a l ih =>
    simp only [List.map_cons, List.sum_cons, List.length_cons, ih]
    push_cast
    ring

theorem pop_var_eq (l : List ℚ) (h : l ≠ []) :
    (l.map (fun t => (t - l.sum / (l.length : ℚ)) ^ 2)).sum
      = (l.map (fun t => t ^ 2)).sum - l.sum ^ 2 / (l.length : ℚ) := by
  have hpos : 0 < l.length := List.length_pos.mpr h
  have hlen0 : ((l.length : ℚ)) ≠ 0 := by positivity
  rw [sum_sq_dev]
  field_simp
  ring

/-! ## Claim theorems -/

/-- C2: for any finite nonempty sequence of samples recorded into one
kind slice, the stored mean_time equals sum / n (exactly, in the
rational model of doubles), sum_var_time — maintained by Welford's
update — equals the sum of squared deviations from the mean, and the
reported population variance (the square of the reported stddev, with
no Bessel correction) is that sum divided by n when n is greater than
1, and is reported as 0 when n is at most 1. -/
theorem welford_correctness (l : List ℚ) (h : l ≠ []) :
    (record_samples l).calls = l.length ∧
    (record_samples l).mean_time = l.sum / (l.length : ℚ) ∧
    (record_samples l).sum_var_time
      = (l.map (fun t => (t - l.sum / (l.length : ℚ)) ^ 2)).sum ∧
    reported_variance (record_samples l)
      = (if 1 < l.length then
          (l.map (fun t => (t - l.sum / (l.length : ℚ)) ^ 2)).sum / (l.length : ℚ)
        else 0) := by
  obtain ⟨hc, ht, hm, hv⟩ := record_samples_spec l h
  rw [pop_var_eq l h]
  refine ⟨hc, hm, hv, ?_⟩
  rw [reported_variance, hc, hv]

/-- Witness for C2 at the concrete sample list 1, 2, 3. -/
theorem welford_correctness_witness :
    ([1, 2, 3] : List ℚ) ≠ [] ∧
    ((record_samples [1, 2, 3]).calls = ([1, 2, 3] : List ℚ).length ∧
     (record_samples [1, 2, 3]).mean_time
       = ([1, 2, 3] : List ℚ).sum / (([1, 2, 3] : List ℚ).length : ℚ) ∧
     (record_samples [1, 2, 3]).sum_var_time
       = (([1, 2, 3] : List ℚ).map
           (fun t => (t - ([1, 2, 3] : List ℚ).sum / (([1, 2, 3] : List ℚ).length : ℚ)) ^ 2)).sum ∧
     reported_variance (record_samples [1, 2, 3])
       = (if 1 < ([1, 2, 3] : List ℚ).length then
           (([1, 2, 3] : List ℚ).map
             (fun t => (t - ([1, 2, 3] : List ℚ).sum / (([1, 2, 3] : List ℚ).length : ℚ)) ^ 2)).sum
             / (([1, 2, 3] : List ℚ).length : ℚ)
         else 0)) :=
  ⟨by simp, welford_correctness [1, 2, 3] (by simp)⟩

/-- C3: an entry created through the sticky path of entry_alloc has no
plan and no exec calls (it is sticky) and its usage is seeded with the
table's current median usage; the first real sample unsticks it — the
unstick step sets usage to exactly USAGE_INIT, the result is no longer
sticky, its usage is USAGE_INIT plus the sample's usage increment, and
the post-sample counters are independent of the seeded median. -/
theorem sticky_semantics (m : ℚ) (now : Int) (a : AllocArgs)
    (ha : a.sticky = true) (k : Kind) (t : ℚ) :
    IS_STICKY (init_entry m now a).counters = true ∧
    (init_entry m now a).counters.plan.calls
      + (init_entry m now a).counters.exec.calls = 0 ∧
    (init_entry m now a).counters.usage = m ∧
    unstick (init_entry m now a).counters
      = { (init_entry m now a).counters with usage := USAGE_INIT } ∧
    IS_STICKY (pgss_store_counters (init_entry m now a).counters k t) = false ∧
    (pgss_store_counters (init_entry m now a).counters k t).usage
      = USAGE_INIT + USAGE_EXEC ∧
    (∀ m2 : ℚ, pgss_store_counters (init_entry m2 now a).counters k t
      = pgss_store_counters (init_entry m now a).counters k t) := by
  cases k <;>
    simp [init_entry, ha, IS_STICKY, unstick, pgss_store_counters,
      Counters.get, Counters.set, zeroKindStats, record_sample_calls]

/-- Witness for C3 at concrete arguments. -/
theorem sticky_semantics_witness :
    ({ key := ⟨1, 2, 3, true⟩, query_offset := 0, query_len := 5,
       encoding := 0, sticky := true, stmt_type := 0, extras_len := 0,
       tag_len := 0 } : AllocArgs).sticky = true ∧
    (IS_STICKY (init_entry 7 0
      { key := ⟨1, 2, 3, true⟩, query_offset := 0, query_len := 5,
        encoding := 0, sticky := true, stmt_type := 0, extras_len := 0,
        tag_len := 0 }).counters = true ∧
     (init_entry 7 0
      { key := ⟨1, 2, 3, true⟩, query_offset := 0, query_len := 5,
        encoding := 0, sticky := true, stmt_type := 0, extras_len := 0,
        tag_len := 0 }).counters.plan.calls
       + (init_entry 7 0
      { key := ⟨1, 2, 3, true⟩, query_offset := 0, query_len := 5,
        encoding := 0, sticky := true, stmt_type := 0, extras_len := 0,
        tag_len := 0 }).counters.exec.calls = 0 ∧
     (init_entry 7 0
      { key := ⟨1, 2, 3, true⟩, query_offset := 0, query_len := 5,
        encoding := 0, sticky := true, stmt_type := 0, extras_len := 0,
        tag_len := 0 }).counters.usage = 7 ∧
     unstick (init_entry 7 0
      { key := ⟨1, 2, 3, true⟩, query_offset := 0, query_len := 5,
        encoding := 0, sticky := true, stmt_type := 0, extras_len := 0,
        tag_len := 0 }).counters
       = { (init_entry 7 0
      { key := ⟨1, 2, 3, true⟩, query_offset := 0, query_len := 5,
        encoding := 0, sticky := true, stmt_type := 0, extras_len := 0,
        tag_len := 0 }).counters with usage := USAGE_INIT } ∧
     IS_STICKY (pgss_store_counters (init_entry 7 0
      { key := ⟨1, 2, 3, true⟩, query_offset := 0, query_len := 5,
        encoding := 0, sticky := true, stmt_type := 0, extras_len := 0,
        tag_len := 0 }).counters Kind.exec 4) = false ∧
     (pgss_store_counters (init_entry 7 0
      { key := ⟨1, 2, 3, true⟩, query_offset := 0, query_len := 5,
        encoding := 0, sticky := true, stmt_type := 0, extras_len := 0,
        tag_len := 0 }).counters Kind.exec 4).usage = USAGE_INIT + USAGE_EXEC ∧
     (∀ m2 : ℚ, pgss_store_counters (init_entry m2 0
      { key := ⟨1, 2, 3, true⟩, query_offset := 0, query_len := 5,
        encoding := 0, sticky := true, stmt_type := 0, extras_len := 0,
        tag_len := 0 }).counters Kind.exec 4
       = pgss_store_counters (init_entry 7 0
      { key := ⟨1, 2, 3, true⟩, query_offset := 0, query_len := 5,
        encoding := 0, sticky := true, stmt_type := 0, extras_len := 0,
        tag_len := 0 }).counters Kind.exec 4)) :=
  ⟨rfl, sticky_semantics 7 0 _ rfl Kind.exec 4⟩

/-- C4: after a minmax-only reset of an entry, min_time and max_time
are exactly 0 for both kinds; a sample of the other kind leaves them 0;
and the next sample for a kind sets that kind's min and max both to the
sample's duration (the pair (0,0) acts as the reset sentinel), instead
of clamping the new sample against the stale 0. -/
theorem minmax_reset_semantics (e : Entry) (ts : Int) (t : ℚ) :
    (minmax_reset ts e).counters.plan.min_time = 0 ∧
    (minmax_reset ts e).counters.plan.max_time = 0 ∧
    (minmax_reset ts e).counters.exec.min_time = 0 ∧
    (minmax_reset ts e).counters.exec.max_time = 0 ∧
    (pgss_store_counters (minmax_reset ts e).counters Kind.exec t).plan
      = (minmax_reset ts e).counters.plan ∧
    (pgss_store_counters (minmax_reset ts e).counters Kind.plan t).exec
      = (minmax_reset ts e).counters.exec ∧
    (∀ k : Kind,
      ((pgss_store_counters (minmax_reset ts e).counters k t).get k).min_time = t ∧
      ((pgss_store_counters (minmax_reset ts e).counters k t).get k).max_time = t) := by
  refine ⟨rfl, rfl, rfl, rfl, ?_, ?_, ?_⟩
  · simp only [pgss_store_counters, unstick, Counters.set, Counters.get]
    split <;> rfl
  · simp only [pgss_store_counters, unstick, Counters.set, Counters.get]
    split <;> rfl
  · intro k
    cases k <;>
      · simp only [pgss_store_counters, unstick, minmax_reset, minmax_reset_kind,
          Counters.get, Counters.set, record_sample]
        split <;> split <;> simp_all

/-- C6: need_gc_qtexts returns true exactly when the text-store extent
is at least both 512 bytes times the configured capacity and twice the
running mean query length times the capacity; in particular it returns
false for an extent of 1000 bytes with capacity 5000 whatever the mean
query length is. -/
theorem need_gc_iff :
    (∀ extent mean_query_len pgss_max : Nat,
        need_gc_qtexts extent mean_query_len pgss_max = true ↔
          512 * pgss_max ≤ extent ∧ 2 * (mean_query_len * pgss_max) ≤ extent) ∧
    (∀ mean_query_len : Nat, need_gc_qtexts 1000 mean_query_len 5000 = false) := by
  constructor
  · intro extent mean pmax
    simp only [need_gc_qtexts]
    split
    · simp; omega
    · split
      · simp; omega
      · simp; omega
  · intro mean
    simp only [need_gc_qtexts]
    split
    · rfl
    · omega

/-! ## Helper lemmas about reset -/

theorem single_entry_reset_len (mm : Bool) (ts : Int) (t : List Entry)
    (k : HashKey) (n : Nat) :
    (single_entry_reset mm ts t k n).1.length + (single_entry_reset mm ts t k n).2
      = t.length + n := by
  cases hf : t.find? (fun e => decide (e.key = k)) with
  | none => simp [single_entry_reset, hf]
  | some e =>
    cases mm with
    | true => simp [single_entry_reset, hf]
    | false =>
      have hm := List.mem_of_find?_eq_some hf
      have hp := List.find?_some hf
      have hl := List.length_eraseP_add_one
        (p := fun x : Entry => decide (x.key = k)) hm hp
      simp [single_entry_reset, hf]
      omega

theorem single_entry_reset_remove_le (mm : Bool) (ts : Int) (t : List Entry)
    (k : HashKey) (n : Nat) :
    (single_entry_reset mm ts t k n).2 ≤ n + 1 := by
  cases hf : t.find? (fun e => decide (e.key = k)) with
  | none => simp [single_entry_reset, hf]
  | some e => cases mm <;> simp [single_entry_reset, hf]

theorem single_entry_reset_false_sublist (ts : Int) (t : List Entry)
    (k : HashKey) (n : Nat) :
    (single_entry_reset false ts t k n).1.Sublist t := by
  cases hf : t.find? (fun e => decide (e.key = k)) with
  | none => simp [single_entry_reset, hf]
  | some e =>
    simp only [single_entry_reset, hf]
    exact List.eraseP_sublist t

theorem single_entry_reset_false_mem (ts : Int) (t : List Entry)
    (k : HashKey) (n : Nat) (e : Entry) (he : e ∈ t) (hk : e.key ≠ k) :
    e ∈ (single_entry_reset false ts t k n).1 := by
  cases hf : t.find? (fun x => decide (x.key = k)) with
  | none => simpa [single_entry_reset, hf] using he
  | some x =>
    simp only [single_entry_reset, hf]
    have hnp : ¬((fun x : Entry => decide (x.key = k)) e = true) := by simp [hk]
    exact (List.mem_eraseP_of_neg (l := t) hnp).mpr he

theorem scan_reset_len (mm : Bool) (ts : Int) (p : Entry → Bool) (l : List Entry) :
    (scan_reset mm ts p l).1.length + (scan_reset mm ts p l).2 = l.length := by
  induction l with
  | nil => simp [scan_reset]
  | cons e rest ih =>
    simp only [scan_reset]
    by_cases hp : p e
    · cases mm <;> simp [hp] <;> omega
    · simp [hp]
      omega

theorem entry_reset_entries_len (mm : Bool) (ts : Int) (u : Nat)
    (dbids : List Nat) (q : Nat) (l : List Entry) :
    (entry_reset_entries mm ts u dbids q l).1.length
      + (entry_reset_entries mm ts u dbids q l).2 = l.length := by
  unfold entry_reset_entries
  split
  · dsimp only
    have h1 := single_entry_reset_len mm ts l ⟨u, dbids.headI, q, false⟩ 0
    have h2 := single_entry_reset_len mm ts
      (single_entry_reset mm ts l ⟨u, dbids.headI, q, false⟩ 0).1
      ⟨u, dbids.headI, q, true⟩
      (single_entry_reset mm ts l ⟨u, dbids.headI, q, false⟩ 0).2
    omega
  · split
    · split
      · exact scan_reset_len mm ts _ l
      · exact scan_reset_len mm ts _ l
    · exact scan_reset_len mm ts _ l

theorem entry_reset_entries_eq (s : PgssState) (u : Nat) (dbids : List Nat)
    (q : Nat) (mm : Bool) (ts : Int) :
    (entry_reset s u dbids q mm ts).entries
      = (entry_reset_entries mm ts u dbids q s.entries).1 := by
  unfold entry_reset
  dsimp only
  split <;> rfl

/-- C7: a reset call with an exact user, exactly one database, a
nonzero fingerprint and minmax_only false takes the fast path: the
surviving entry list is a sublist of the original (no entry is altered,
keys and counters included), at most 2 entries — the two toplevel
variants of the exact key — are removed, and every entry whose key is
neither variant survives untouched. -/
theorem reset_fast_path_frame (s : PgssState) (u d q : Nat) (ts : Int)
    (hu : u ≠ 0) (hq : q ≠ 0) :
    (entry_reset s u [d] q false ts).entries.Sublist s.entries ∧
    s.entries.length ≤ (entry_reset s u [d] q false ts).entries.length + 2 ∧
    (∀ e ∈ s.entries, e.key ≠ ⟨u, d, q, false⟩ → e.key ≠ ⟨u, d, q, true⟩ →
      e ∈ (entry_reset s u [d] q false ts).entries) := by
  have hcond : u ≠ 0 ∧ ([d] : List Nat).length = 1 ∧ q ≠ 0 := ⟨hu, rfl, hq⟩
  have hfast : entry_reset_entries false ts u [d] q s.entries
      = single_entry_reset false ts
          (single_entry_reset false ts s.entries ⟨u, d, q, false⟩ 0).1
          ⟨u, d, q, true⟩
          (single_entry_reset false ts s.entries ⟨u, d, q, false⟩ 0).2 := by
    unfold entry_reset_entries
    rw [if_pos hcond]
    rfl
  rw [entry_reset_entries_eq, hfast]
  set r1 := single_entry_reset false ts s.entries ⟨u, d, q, false⟩ 0 with hr1
  refine ⟨?_, ?_, ?_⟩
  · exact (single_entry_reset_false_sublist ts r1.1 ⟨u, d, q, true⟩ r1.2).trans
      (single_entry_reset_false_sublist ts s.entries ⟨u, d, q, false⟩ 0)
  · have h1 := single_entry_reset_len false ts s.entries ⟨u, d, q, false⟩ 0
    have h2 := single_entry_reset_len false ts r1.1 ⟨u, d, q, true⟩ r1.2
    have h3 := single_entry_reset_remove_le false ts s.entries ⟨u, d, q, false⟩ 0
    have h4 := single_entry_reset_remove_le false ts r1.1 ⟨u, d, q, true⟩ r1.2
    rw [← hr1] at h1 h3
    omega
  · intro e he hkf hkt
    exact single_entry_reset_false_mem ts r1.1 ⟨u, d, q, true⟩ r1.2 e
      (single_entry_reset_false_mem ts s.entries ⟨u, d, q, false⟩ 0 e he hkf) hkt

/-- Witness for C7 at user 42, dbid 7, fingerprint 12345 on a one-entry
table. -/
theorem reset_fast_path_frame_witness :
    (42 : Nat) ≠ 0 ∧ (12345 : Nat) ≠ 0 ∧
    ((entry_reset
        { entries := [default], cur_median_usage := 0, mean_query_len := 0,
          extent := 0, gc_count := 0, dealloc := 0, stats_reset := 0 }
        42 [7] 12345 false 0).entries.Sublist [default] ∧
     ([default] : List Entry).length
       ≤ (entry_reset
        { entries := [default], cur_median_usage := 0, mean_query_len := 0,
          extent := 0, gc_count := 0, dealloc := 0, stats_reset := 0 }
        42 [7] 12345 false 0).entries.length + 2 ∧
     (∀ e ∈ ([default] : List Entry), e.key ≠ ⟨42, 7, 12345, false⟩ →
        e.key ≠ ⟨42, 7, 12345, true⟩ →
        e ∈ (entry_reset
        { entries := [default], cur_median_usage := 0, mean_query_len := 0,
          extent := 0, gc_count := 0, dealloc := 0, stats_reset := 0 }
        42 [7] 12345 false 0).entries)) :=
  ⟨by decide, by decide,
   reset_fast_path_frame
     { entries := [default], cur_median_usage := 0, mean_query_len := 0,
       extent := 0, gc_count := 0, dealloc := 0, stats_reset := 0 }
     42 7 12345 0 (by decide) (by decide)⟩

/-- C9: the global stats block (dealloc count and full-reset timestamp)
is reset exactly when the number of entries removed by the call equals
the number of entries present at its start, which happens exactly when
no entry survives; whenever at least one entry survives, the global
dealloc count and the full-reset timestamp are unchanged. -/
theorem global_stats_reset_only_on_full (s : PgssState) (u : Nat)
    (dbids : List Nat) (q : Nat) (mm : Bool) (ts : Int) :
    ((entry_reset_entries mm ts u dbids q s.entries).2 = s.entries.length ↔
      (entry_reset s u dbids q mm ts).entries = []) ∧
    ((entry_reset s u dbids q mm ts).entries ≠ [] →
      (entry_reset s u dbids q mm ts).dealloc = s.dealloc ∧
      (entry_reset s u dbids q mm ts).stats_reset = s.stats_reset) ∧
    ((entry_reset_entries mm ts u dbids q s.entries).2 = s.entries.length →
      (entry_reset s u dbids q mm ts).dealloc = 0 ∧
      (entry_reset s u dbids q mm ts).stats_reset = ts) := by
  have hlen := entry_reset_entries_len mm ts u dbids q s.entries
  have hentries := entry_reset_entries_eq s u dbids q mm ts
  have hiff : (entry_reset_entries mm ts u dbids q s.entries).2 = s.entries.length ↔
      (entry_reset s u dbids q mm ts).entries = [] := by
    rw [hentries, ← List.length_eq_zero]
    omega
  refine ⟨hiff, ?_, ?_⟩
  · intro hne
    have hne2 : s.entries.length ≠ (entry_reset_entries mm ts u dbids q s.entries).2 := by
      intro h
      exact hne (hiff.mp h.symm)
    unfold entry_reset
    dsimp only
    rw [if_pos hne2]
    exact ⟨rfl, rfl⟩
  · intro hfull
    unfold entry_reset
    dsimp only
    rw [if_neg (by omega : ¬ s.entries.length ≠ (entry_reset_entries mm ts u dbids q s.entries).2)]
    exact ⟨rfl, rfl⟩

/-- C10: the enumeration loop of edb_stat_statements_internal never
emits a row for a sticky entry: every returned row has at least one
recorded plan or exec call. -/
theorem rows_skip_sticky (l : List Entry) (r : StatRow)
    (hr : r ∈ statements_rows l) :
    0 < r.plan.calls + r.exec.calls := by
  induction l with
  | nil => simp [statements_rows] at hr
  | cons e rest ih =>
    by_cases hs : IS_STICKY e.counters
    · rw [statements_rows, if_pos hs] at hr
      exact ih hr
    · rw [statements_rows, if_neg hs] at hr
      rcases List.mem_cons.mp hr with hr1 | hr2
      · subst hr1
        have : e.counters.plan.calls + e.counters.exec.calls ≠ 0 := by
          simpa [IS_STICKY] using hs
        simp only [mkRow]
        omega
      · exact ih hr2

/-- Witness for C10: a one-entry table whose entry has one exec call. -/
theorem rows_skip_sticky_witness :
    (mkRow sample_entry_one_exec ∈ statements_rows [sample_entry_one_exec]) ∧
    0 < (mkRow sample_entry_one_exec).plan.calls
        + (mkRow sample_entry_one_exec).exec.calls :=
  ⟨by simp [statements_rows, sample_entry_one_exec, IS_STICKY, zeroKindStats],
   rows_skip_sticky [sample_entry_one_exec] (mkRow sample_entry_one_exec)
     (by simp [statements_rows, sample_entry_one_exec, IS_STICKY, zeroKindStats])⟩

/-! ## Helper lemmas about eviction and allocation -/

theorem usage_le_trans (a b c : Entry) (hab : usage_le a b = true)
    (hbc : usage_le b c = true) : usage_le a c = true := by
  simp only [usage_le, decide_eq_true_eq] at *
  exact le_trans hab hbc

theorem usage_le_total (a b : Entry) : (usage_le a b || usage_le b a) = true := by
  simp only [usage_le, Bool.or_eq_true, decide_eq_true_eq]
  exact le_total a.counters.usage b.counters.usage

theorem entry_dealloc_entries (s : PgssState) :
    (entry_dealloc s).entries
      = ((s.entries.map decay_entry).mergeSort usage_le).drop
          (nvictims s.entries.length) := by
  simp [entry_dealloc]

theorem entry_dealloc_length (s : PgssState) :
    (entry_dealloc s).entries.length
      = s.entries.length - nvictims s.entries.length := by
  rw [entry_dealloc_entries]
  simp [List.length_drop, List.length_mergeSort, List.length_map]

theorem nvictims_pos (n : Nat) (hn : 0 < n) : 1 ≤ nvictims n := by
  simp only [nvictims]
  omega

theorem nvictims_le (n : Nat) : nvictims n ≤ n := by
  simp only [nvictims]
  omega

/-- C5: one eviction pass decays every entry's usage by
USAGE_DECREASE_FACTOR (0.99), or STICKY_DECREASE_FACTOR (0.50) for a
sticky entry; it removes exactly nvictims = min(max(10, 5 percent of
the entry count), entry count) entries; the removed batch together
with the survivors is a permutation of the decayed table; and every
removed entry's post-decay usage is at most every survivor's. -/
theorem eviction_selects_lowest_usage (s : PgssState) :
    (∀ e ∈ s.entries, (decay_entry e).counters.usage
        = e.counters.usage
          * (if IS_STICKY e.counters then STICKY_DECREASE_FACTOR
             else USAGE_DECREASE_FACTOR)) ∧
    (entry_dealloc s).entries.length + nvictims s.entries.length
      = s.entries.length ∧
    ((((s.entries.map decay_entry).mergeSort usage_le).take
        (nvictims s.entries.length) ++ (entry_dealloc s).entries).Perm
      (s.entries.map decay_entry)) ∧
    (∀ r ∈ ((s.entries.map decay_entry).mergeSort usage_le).take
        (nvictims s.entries.length),
      ∀ k ∈ (entry_dealloc s).entries,
        r.counters.usage ≤ k.counters.usage) := by
  refine ⟨?_, ?_, ?_, ?_⟩
  · intro e _
    by_cases hs : IS_STICKY e.counters <;> simp [decay_entry, hs]
  · rw [entry_dealloc_length]
    have h1 := nvictims_le s.entries.length
    omega
  · rw [entry_dealloc_entries, List.take_append_drop]
    exact List.mergeSort_perm _ usage_le
  · rw [entry_dealloc_entries]
    have hs := List.sorted_mergeSort usage_le_trans usage_le_total
      (s.entries.map decay_entry)
    rw [← List.take_append_drop (nvictims s.entries.length)
      ((s.entries.map decay_entry).mergeSort usage_le)] at hs
    have h3 := (List.pairwise_append.mp hs).2.2
    intro r hr k hk
    have := h3 r hr k hk
    simpa [usage_le, decide_eq_true_eq] using this

theorem make_space_bound (pgss_max : Nat) (hmax : 1 ≤ pgss_max) :
    ∀ (n : Nat) (s : PgssState), s.entries.length ≤ n →
      (make_space pgss_max s).entries.length < pgss_max := by
  intro n
  induction n with
  | zero =>
    intro s hs
    rw [make_space, dif_neg]
    · omega
    · omega
  | succ n ih =>
    intro s hs
    rw [make_space]
    split
    · rename_i h
      apply ih
      have h1 := entry_dealloc_length s
      have h2 := nvictims_pos s.entries.length h.2
      omega
    · rename_i h
      rw [not_and_or] at h
      omega

theorem entry_alloc_bound (pgss_max : Nat) (hmax : 1 ≤ pgss_max) (now : Int)
    (s : PgssState) (a : AllocArgs) :
    (entry_alloc pgss_max now s a).entries.length ≤ pgss_max := by
  have hb := make_space_bound pgss_max hmax s.entries.length s le_rfl
  unfold entry_alloc
  dsimp only
  split
  · omega
  · simp only [List.length_cons]
    omega

/-- C1: for every sequence of allocate calls (with the configured
capacity at least 1, as the GUC guarantees), the entry count is at most
the capacity after every allocate call: the state after any nonempty
prefix of the sequence has at most pgss_max entries, because allocate
first runs entry_dealloc until a slot is free. -/
theorem capacity_invariant (pgss_max : Nat) (hmax : 1 ≤ pgss_max) (now : Int)
    (s : PgssState) (ops pre : List AllocArgs) (hpre : pre <+: ops)
    (hne : pre ≠ []) :
    (pre.foldl (entry_alloc pgss_max now) s).entries.length ≤ pgss_max := by
  rcases List.eq_nil_or_concat pre with h | ⟨l, a, rfl⟩
  · exact absurd h hne
  · rw [List.concat_eq_append, List.foldl_append]
    simp only [List.foldl_cons, List.foldl_nil]
    exact entry_alloc_bound pgss_max hmax now _ a

/-- Witness for C1: one allocation into the empty table at capacity 100. -/
theorem capacity_invariant_witness :
    (1 : Nat) ≤ 100 ∧ ([sample_alloc_args] <+: [sample_alloc_args]) ∧
    ([sample_alloc_args] : List AllocArgs) ≠ [] ∧
    ([sample_alloc_args].foldl (entry_alloc 100 0) empty_state).entries.length ≤ 100 :=
  ⟨by decide, List.prefix_rfl, by simp,
   capacity_invariant 100 (by decide) 0 empty_state [sample_alloc_args]
     [sample_alloc_args] List.prefix_rfl (by simp)⟩

/-! ## Helper lemmas about garbage collection -/

theorem gc_scan_preserves (f : Entry → Bool) (w : Nat → Bool) :
    ∀ (l : List Entry) (ext n : Nat),
      (gc_scan f w l ext n).1.map (fun e => e.counters)
          = l.map (fun e => e.counters) ∧
      (gc_scan f w l ext n).1.map (fun e => e.key) = l.map (fun e => e.key) := by
  intro l
  induction l with
  | nil => intro ext n; simp [gc_scan]
  | cons e rest ih =>
    intro ext n
    rw [gc_scan]
    by_cases hf : f e
    · by_cases hw : w n
      · obtain ⟨ih1, ih2⟩ :=
          ih (ext + (e.query_len + e.extras_len + e.tag_len).toNat + 1) (n + 1)
        simp [hf, hw, ih1, ih2]
      · simp [hf, hw]
    · obtain ⟨ih1, ih2⟩ := ih ext n
      simp [hf, invalidate_text, ih1, ih2]

theorem gc_fail_state_spec (s : PgssState) :
    (∀ e ∈ (gc_fail_state s).entries,
      e.query_offset = 0 ∧ e.query_len = -1 ∧ e.extras_len = 0 ∧ e.tag_len = 0) ∧
    (gc_fail_state s).extent = 0 ∧
    (gc_fail_state s).gc_count = s.gc_count + 1 ∧
    (gc_fail_state s).entries.map (fun e => e.counters)
      = s.entries.map (fun e => e.counters) ∧
    (gc_fail_state s).entries.map (fun e => e.key)
      = s.entries.map (fun e => e.key) := by
  refine ⟨?_, rfl, rfl, ?_, ?_⟩
  · intro e he
    simp only [gc_fail_state, List.mem_map] at he
    obtain ⟨x, _, rfl⟩ := he
    exact ⟨rfl, rfl, rfl, rfl⟩
  · simp only [gc_fail_state, List.map_map]
    rfl
  · simp only [gc_fail_state, List.map_map]
    rfl

/-- C8: when gc_qtexts fails at any point — the load of the old file,
the open for rewriting, any write during the rewrite loop, or the final
close — every entry's text reference is invalidated (query_offset 0,
query_len -1, extras_len 0, tag_len 0), the store is recreated empty
(extent 0), the GC generation counter is still bumped by one, and no
entry's statistics counters (nor its key) are modified. -/
theorem gc_failure_invalidates_texts (pgss_max : Nat) (lo oo co : Bool)
    (f : Entry → Bool) (w : Nat → Bool) (s : PgssState)
    (hgc : need_gc_qtexts s.extent s.mean_query_len pgss_max = true)
    (hfail : lo = false ∨ oo = false ∨
      (gc_scan f w s.entries 0 0).2.2.2 = false ∨ co = false) :
    (∀ e ∈ (gc_qtexts pgss_max lo oo co f w s).entries,
      e.query_offset = 0 ∧ e.query_len = -1 ∧ e.extras_len = 0 ∧ e.tag_len = 0) ∧
    (gc_qtexts pgss_max lo oo co f w s).extent = 0 ∧
    (gc_qtexts pgss_max lo oo co f w s).gc_count = s.gc_count + 1 ∧
    (gc_qtexts pgss_max lo oo co f w s).entries.map (fun e => e.counters)
      = s.entries.map (fun e => e.counters) ∧
    (gc_qtexts pgss_max lo oo co f w s).entries.map (fun e => e.key)
      = s.entries.map (fun e => e.key) := by
  have hres : gc_qtexts pgss_max lo oo co f w s = gc_fail_state s ∨
      gc_qtexts pgss_max lo oo co f w s
        = gc_fail_state { s with entries := (gc_scan f w s.entries 0 0).1 } := by
    unfold gc_qtexts
    rw [if_neg (by simp [hgc])]
    cases lo with
    | false => left; rfl
    | true =>
      cases oo with
      | false => left; simp
      | true =>
        simp only [Bool.true_eq_false, false_or] at hfail
        cases hok : (gc_scan f w s.entries 0 0).2.2.2 with
        | false =>
          right
          simp [hok]
        | true =>
          cases co with
          | false =>
            right
            simp [hok]
          | true => simp [hok] at hfail
  obtain ⟨g1, g2, g3, g4, g5⟩ := gc_fail_state_spec s
  obtain ⟨h1, h2, h3, h4, h5⟩ :=
    gc_fail_state_spec { s with entries := (gc_scan f w s.entries 0 0).1 }
  obtain ⟨p1, p2⟩ := gc_scan_preserves f w s.entries 0 0
  cases hres with
  | inl h => rw [h]; exact ⟨g1, g2, g3, g4, g5⟩
  | inr h =>
    rw [h]
    refine ⟨h1, h2, h3, ?_, ?_⟩
    · rw [h4]; exact p1
    · rw [h5]; exact p2

/-- Witness for C4 at a concrete entry, reset timestamp 5 and sample 3. -/
theorem minmax_reset_semantics_witness :
    (minmax_reset 5 sample_entry_one_exec).counters.plan.min_time = 0 ∧
    (minmax_reset 5 sample_entry_one_exec).counters.plan.max_time = 0 ∧
    (minmax_reset 5 sample_entry_one_exec).counters.exec.min_time = 0 ∧
    (minmax_reset 5 sample_entry_one_exec).counters.exec.max_time = 0 ∧
    (pgss_store_counters (minmax_reset 5 sample_entry_one_exec).counters
        Kind.exec 3).plan
      = (minmax_reset 5 sample_entry_one_exec).counters.plan ∧
    (pgss_store_counters (minmax_reset 5 sample_entry_one_exec).counters
        Kind.plan 3).exec
      = (minmax_reset 5 sample_entry_one_exec).counters.exec ∧
    (∀ k : Kind,
      ((pgss_store_counters (minmax_reset 5 sample_entry_one_exec).counters
          k 3).get k).min_time = 3 ∧
      ((pgss_store_counters (minmax_reset 5 sample_entry_one_exec).counters
          k 3).get k).max_time = 3) :=
  minmax_reset_semantics sample_entry_one_exec 5 3

/-- Witness for C5 at a concrete one-entry state. -/
theorem eviction_selects_lowest_usage_witness :
    (∀ e ∈ [sample_entry_one_exec], (decay_entry e).counters.usage
        = e.counters.usage
          * (if IS_STICKY e.counters then STICKY_DECREASE_FACTOR
             else USAGE_DECREASE_FACTOR)) ∧
    (entry_dealloc { entries := [sample_entry_one_exec], cur_median_usage := 1,
                     mean_query_len := 1024, extent := 0, gc_count := 0,
                     dealloc := 0, stats_reset := 0 }).entries.length
        + nvictims ([sample_entry_one_exec] : List Entry).length
      = ([sample_entry_one_exec] : List Entry).length ∧
    (((([sample_entry_one_exec].map decay_entry).mergeSort usage_le).take
        (nvictims ([sample_entry_one_exec] : List Entry).length)
      ++ (entry_dealloc { entries := [sample_entry_one_exec],
                          cur_median_usage := 1, mean_query_len := 1024,
                          extent := 0, gc_count := 0, dealloc := 0,
                          stats_reset := 0 }).entries).Perm
      ([sample_entry_one_exec].map decay_entry)) ∧
    (∀ r ∈ (([sample_entry_one_exec].map decay_entry).mergeSort usage_le).take
        (nvictims ([sample_entry_one_exec] : List Entry).length),
      ∀ k ∈ (entry_dealloc { entries := [sample_entry_one_exec],
                             cur_median_usage := 1, mean_query_len := 1024,
                             extent := 0, gc_count := 0, dealloc := 0,
                             stats_reset := 0 }).entries,
        r.counters.usage ≤ k.counters.usage) :=
  eviction_selects_lowest_usage
    { entries := [sample_entry_one_exec], cur_median_usage := 1,
      mean_query_len := 1024, extent := 0, gc_count := 0, dealloc := 0,
      stats_reset := 0 }

/-- Witness for C6 at the spec's concrete numbers. -/
theorem need_gc_iff_witness :
    (need_gc_qtexts 2560000 0 5000 = true ↔
      512 * 5000 ≤ 2560000 ∧ 2 * (0 * 5000) ≤ 2560000) ∧
    need_gc_qtexts 1000 0 5000 = false :=
  ⟨need_gc_iff.1 2560000 0 5000, need_gc_iff.2 0⟩

/-- Witness for C9: a full reset of the empty table resets the global
stats block; the inner condition is discharged at the concrete input. -/
theorem global_stats_reset_only_on_full_witness :
    (entry_reset_entries false 0 0 [] 0 (empty_state).entries).2
        = (empty_state).entries.length ∧
    ((entry_reset empty_state 0 [] 0 false 0).dealloc = 0 ∧
     (entry_reset empty_state 0 [] 0 false 0).stats_reset = 0) :=
  ⟨by decide,
   (global_stats_reset_only_on_full empty_state 0 [] 0 false 0).2.2 (by decide)⟩

/-- Witness for C8: a load failure on a one-entry state whose extent
triggers the GC heuristic at capacity 1. -/
theorem gc_failure_invalidates_texts_witness :
    need_gc_qtexts 100000 0 1 = true ∧
    ((false : Bool) = false ∨ (true : Bool) = false ∨
      (gc_scan (fun _ => true) (fun _ => true) [sample_entry_one_exec] 0 0).2.2.2 = false ∨
      (true : Bool) = false) ∧
    ((∀ e ∈ (gc_qtexts 1 false true true (fun _ => true) (fun _ => true)
        { entries := [sample_entry_one_exec], cur_median_usage := 1,
          mean_query_len := 0, extent := 100000, gc_count := 0,
          dealloc := 0, stats_reset := 0 }).entries,
        e.query_offset = 0 ∧ e.query_len = -1 ∧ e.extras_len = 0 ∧ e.tag_len = 0) ∧
     (gc_qtexts 1 false true true (fun _ => true) (fun _ => true)
        { entries := [sample_entry_one_exec], cur_median_usage := 1,
          mean_query_len := 0, extent := 100000, gc_count := 0,
          dealloc := 0, stats_reset := 0 }).extent = 0 ∧
     (gc_qtexts 1 false true true (fun _ => true) (fun _ => true)
        { entries := [sample_entry_one_exec], cur_median_usage := 1,
          mean_query_len := 0, extent := 100000, gc_count := 0,
          dealloc := 0, stats_reset := 0 }).gc_count = 0 + 1 ∧
     (gc_qtexts 1 false true true (fun _ => true) (fun _ => true)
        { entries := [sample_entry_one_exec], cur_median_usage := 1,
          mean_query_len := 0, extent := 100000, gc_count := 0,
          dealloc := 0, stats_reset := 0 }).entries.map (fun e => e.counters)
       = [sample_entry_one_exec].map (fun e => e.counters) ∧
     (gc_qtexts 1 false true true (fun _ => true) (fun _ => true)
        { entries := [sample_entry_one_exec], cur_median_usage := 1,
          mean_query_len := 0, extent := 100000, gc_count := 0,
          dealloc := 0, stats_reset := 0 }).entries.map (fun e => e.key)
       = [sample_entry_one_exec].map (fun e => e.key)) :=
  ⟨by decide, Or.inl rfl,
   gc_failure_invalidates_texts 1 false true true (fun _ => true) (fun _ => true)
     { entries := [sample_entry_one_exec], cur_median_usage := 1,
       mean_query_len := 0, extent := 100000, gc_count := 0,
       dealloc := 0, stats_reset := 0 }
     (by decide) (Or.inl rfl)⟩

end EdbStatStatements
